import Mathlib

/-!
Shallow embedding of the tiered blob store in `main.go` of the
go-file-conversion repository (the `FileStore` type and its operations
`AddFile`, `GetFile`, `deleteFileInternal`, and one tick of
`cleanupRoutine`), together with proofs about the frozen specification
claims.

Modelling conventions:
* Go maps (`files`, `ramStore`) become association lists with Go-map
  lookup/insert/delete semantics (`mapLookup`, `mapInsert`, `mapErase`);
  insertion replaces the key, deletion removes it entirely.
* Byte slices become `List Nat`; `int64` sizes become `Int` (overflow is
  irrelevant at the magnitudes the program handles).
* `time.Time` becomes `Nat` (monotone clock ticks); `t1.After(t2)` is the
  strict comparison `t1 > t2`, as in Go. The `time.Now()` calls inside a
  single lock-protected operation are modelled as one instant `now`,
  passed as a parameter.
* The filesystem is part of the modelled state: a `disk` map from paths
  to contents. `filepath.Join(a, b)` is modelled as `a ++ "/" ++ b`
  (faithful for clean path components). `os.Remove` failure is logged and
  ignored by the code, which the erase-if-present map semantics matches.
* Effectful collaborators are oracles passed as arguments: `generateID`
  becomes an `Option String` (`none` = entropy failure), `io.ReadAll`
  an `Option (List Nat)`, `performConversion` an opaque function
  returning `Option (bytes, new name)` (`none` = conversion failure),
  and `os.WriteFile` success a `Bool`.
* Error values are the `fmt.Errorf` format strings, without the wrapped
  inner error text.
-/

/-- Configuration constants of the store (the Go `const` block):
memory budget in bytes and blob TTL. -/
structure StoreConfig where
  ramLimitBytes : Int
  fileExpiryDuration : Nat
deriving DecidableEq, Repr

/-- Go constant `fileExpiryDuration = 10 * time.Minute`, in nanoseconds. -/
def fileExpiryDuration : Nat := 10 * 60 * 1000000000

/-- Go constant `ramLimitBytes = 16 * 1024 * 1024 * 1024`. -/
def ramLimitBytes : Int := 16 * 1024 * 1024 * 1024

/-- Go constant `defaultDiskPath = "temp_files"`. -/
def defaultDiskPath : String := "temp_files"

/-- The configuration the repository actually runs with. -/
def defaultConfig : StoreConfig :=
  { ramLimitBytes := ramLimitBytes, fileExpiryDuration := fileExpiryDuration }

/-- Go struct `FileMetadata` (src/main.go lines 39-49). -/
structure FileMetadata where
  id : String
  originalName : String
  convertedName : String
  size : Int
  uploadTime : Nat
  expiryTime : Nat
  isInMemory : Bool
  path : String
  contentType : String
deriving DecidableEq, Repr

/-- Go-map lookup on an association list. -/
def mapLookup (k : String) : List (String × α) → Option α
  | [] => none
  | p :: rest => if p.1 = k then some p.2 else mapLookup k rest

/-- Go-map deletion: removes every entry whose key is `k`. -/
def mapErase (k : String) : List (String × α) → List (String × α)
  | [] => []
  | p :: rest => if p.1 = k then mapErase k rest else p :: mapErase k rest

/-- Go-map insertion `m[k] = v`: replaces any existing entry for `k`. -/
def mapInsert (k : String) (v : α) (m : List (String × α)) : List (String × α) :=
  (k, v) :: mapErase k m

/-- Go struct `FileStore` (src/main.go lines 52-58), with the ambient
filesystem modelled as the extra `disk` map from paths to file contents. -/
structure FileStore where
  files : List (String × FileMetadata)
  ramStore : List (String × List Nat)
  currentRAMUsage : Int
  disk : List (String × List Nat)
  diskPath : String
deriving DecidableEq, Repr

/-- Go function `NewFileStore` (src/main.go lines 61-84): fresh empty maps,
zero usage counter; empty path argument falls back to `defaultDiskPath`.
The `os.MkdirAll` fallback logic is not modelled. -/
def NewFileStore (diskPath : String) : FileStore :=
  { files := []
    ramStore := []
    currentRAMUsage := 0
    disk := []
    diskPath := if diskPath = "" then defaultDiskPath else diskPath }

/-- Go function `getContentTypeForExtension` (src/main.go lines 162-243). -/
def getContentTypeForExtension (ext : String) : String :=
  match ext with
  | "jpg" | "jpeg" => "image/jpeg"
  | "png" => "image/png"
  | "gif" => "image/gif"
  | "webp" => "image/webp"
  | "bmp" => "image/bmp"
  | "tiff" => "image/tiff"
  | "svg" => "image/svg+xml"
  | "mp3" => "audio/mpeg"
  | "wav" => "audio/wav"
  | "ogg" => "audio/ogg"
  | "flac" => "audio/flac"
  | "aac" => "audio/aac"
  | "wma" => "audio/x-ms-wma"
  | "mp4" => "video/mp4"
  | "avi" => "video/x-msvideo"
  | "mov" => "video/quicktime"
  | "webm" => "video/webm"
  | "mkv" => "video/x-matroska"
  | "flv" => "video/x-flv"
  | "pdf" => "application/pdf"
  | "docx" => "application/vnd.openxmlformats-officedocument.wordprocessingml.document"
  | "doc" => "application/msword"
  | "txt" => "text/plain"
  | "html" => "text/html"
  | "md" => "text/markdown"
  | "pptx" => "application/vnd.openxmlformats-officedocument.presentationml.presentation"
  | "ppt" => "application/vnd.ms-powerpoint"
  | "xlsx" => "application/vnd.openxmlformats-officedocument.spreadsheetml.sheet"
  | "xls" => "application/vnd.ms-excel"
  | "csv" => "text/csv"
  | "zip" => "application/zip"
  | "tar" => "application/x-tar"
  | "rar" => "application/x-rar-compressed"
  | _ => "application/octet-stream"

/-- The conversion step of `AddFile` (src/main.go lines 122-136): when a
target format is requested, the opaque `performConversion` collaborator
replaces the bytes and the display name; otherwise the submitted bytes and
name pass through unchanged. -/
def conversionStep (conv : List Nat → String → String → Option (List Nat × String))
    (fileBytes : List Nat) (filename targetFormat : String) :
    Option (List Nat × String) :=
  if targetFormat = "" then some (fileBytes, filename) else conv fileBytes filename targetFormat

/-- Go method `FileStore.AddFile` (src/main.go lines 96-159). Oracles:
`idResult` for `generateID`, `readResult` for `io.ReadAll`, `conv` for
`performConversion`, `diskWriteOk` for `os.WriteFile` success. Returns the
Go return value together with the store state after the call. Note that the
code sets `meta.Size` from the length of the bytes read (before any
conversion) and never reassigns it, while the local `fileSize` used for the
tier decision and the usage counter is updated to the converted length. -/
def AddFile (cfg : StoreConfig) (now : Nat)
    (idResult : Option String) (readResult : Option (List Nat))
    (filename headerContentType targetFormat : String)
    (conv : List Nat → String → String → Option (List Nat × String))
    (diskWriteOk : Bool) (fs : FileStore) :
    Except String FileMetadata × FileStore :=
  match idResult with
  | none => (Except.error "failed to generate file ID", fs)
  | some fileID =>
    match readResult with
    | none => (Except.error "failed to read file content", fs)
    | some fileBytes0 =>
      let meta0 : FileMetadata :=
        { id := fileID
          originalName := filename
          convertedName := filename
          size := (fileBytes0.length : Int)
          uploadTime := now
          expiryTime := now + cfg.fileExpiryDuration
          isInMemory := false
          path := ""
          contentType := headerContentType }
      match conversionStep conv fileBytes0 filename targetFormat with
      | none => (Except.error "conversion failed", fs)
      | some (fileBytes, convertedName) =>
        let meta1 : FileMetadata :=
          if targetFormat = "" then meta0
          else { meta0 with
                 convertedName := convertedName
                 contentType := getContentTypeForExtension targetFormat }
        let fileSize : Int := (fileBytes.length : Int)
        if fs.currentRAMUsage + fileSize ≤ cfg.ramLimitBytes then
          let meta : FileMetadata := { meta1 with isInMemory := true }
          (Except.ok meta,
            { fs with
              ramStore := mapInsert fileID fileBytes fs.ramStore
              currentRAMUsage := fs.currentRAMUsage + fileSize
              files := mapInsert fileID meta fs.files })
        else
          let diskFilePath := fs.diskPath ++ "/" ++ fileID ++ "_" ++ meta1.convertedName
          if diskWriteOk then
            let meta : FileMetadata := { meta1 with isInMemory := false, path := diskFilePath }
            (Except.ok meta,
              { fs with
                disk := mapInsert diskFilePath fileBytes fs.disk
                files := mapInsert fileID meta fs.files })
          else
            (Except.error "failed to write file to disk", fs)

/-- Go method `FileStore.deleteFileInternal` (src/main.go lines 276-294):
for a Memory-tier record, drop the `ramStore` entry and subtract its stored
length from the usage counter; for a Disk-tier record, remove the backing
file (removal failure is only logged); finally remove the metadata entry.
Unknown identifiers are a no-op. -/
def deleteFileInternal (fileID : String) (fs : FileStore) : FileStore :=
  match mapLookup fileID fs.files with
  | none => fs
  | some meta =>
    let fs1 : FileStore :=
      if meta.isInMemory then
        match mapLookup fileID fs.ramStore with
        | some data =>
          { fs with
            currentRAMUsage := fs.currentRAMUsage - (data.length : Int)
            ramStore := mapErase fileID fs.ramStore }
        | none => fs
      else
        { fs with disk := mapErase meta.path fs.disk }
    { fs1 with files := mapErase fileID fs1.files }

/-- Go method `FileStore.GetFile` (src/main.go lines 246-272). Returns the
Go return value together with the store state after the call (an expired
record is evicted through `deleteFileInternal` before the error returns). -/
def GetFile (now : Nat) (fileID : String) (fs : FileStore) :
    Except String (FileMetadata × List Nat) × FileStore :=
  match mapLookup fileID fs.files with
  | none => (Except.error "file not found or expired", fs)
  | some meta =>
    if now > meta.expiryTime then
      (Except.error "file not found or expired", deleteFileInternal fileID fs)
    else if meta.isInMemory then
      match mapLookup fileID fs.ramStore with
      | none => (Except.error "file metadata inconsistency: RAM file not found", fs)
      | some content => (Except.ok (meta, content), fs)
    else
      match mapLookup meta.path fs.disk with
      | none => (Except.error "failed to read file from disk", fs)
      | some content => (Except.ok (meta, content), fs)

/-- One tick of the Go goroutine `FileStore.cleanupRoutine`
(src/main.go lines 297-312): scan the metadata entries and evict, through
`deleteFileInternal`, every record whose expiry time has strictly passed. -/
def cleanupTick (now : Nat) (fs : FileStore) : FileStore :=
  fs.files.foldl
    (fun acc p => if now > p.2.expiryTime then deleteFileInternal p.1 acc else acc) fs

/-- Sum of the `Size` metadata field over the Memory-tier records of a
store: the quantity the specification's accounting invariant compares with
`currentRAMUsage`. -/
def memSizeSum (fs : FileStore) : Int :=
  (fs.files.filter fun p => p.2.isInMemory).foldl (fun a p => a + p.2.size) 0

/-! ### Helper lemmas about the map model -/

theorem mapLookup_erase_self (k : String) (m : List (String × α)) :
    mapLookup k (mapErase k m) = none := by
  induction m with
  | nil => rfl
  | cons p rest ih =>
    by_cases h : p.1 = k
    · simp [mapErase, h, ih]
    · simp [mapErase, mapLookup, h, ih]

theorem mapLookup_erase_ne (k k' : String) (m : List (String × α)) (h : k ≠ k') :
    mapLookup k (mapErase k' m) = mapLookup k m := by
  induction m with
  | nil => rfl
  | cons p rest ih =>
    by_cases hp : p.1 = k'
    · simp [mapErase, mapLookup, hp, Ne.symm h, ih]
    · by_cases hk : p.1 = k
      · simp [mapErase, mapLookup, hp, hk, h]
      · simp [mapErase, mapLookup, hp, hk, ih]

theorem mapErase_of_lookup_none (k : String) (m : List (String × α))
    (h : mapLookup k m = none) : mapErase k m = m := by
  induction m with
  | nil => rfl
  | cons p rest ih =>
    by_cases hp : p.1 = k
    · simp [mapLookup, hp] at h
    · simp [mapLookup, hp] at h
      simp only [mapErase, if_neg hp, ih h]

theorem mapLookup_insert_self (k : String) (v : α) (m : List (String × α)) :
    mapLookup k (mapInsert k v m) = some v := by
  simp [mapInsert, mapLookup]

theorem mapLookup_mem (k : String) (v : α) (m : List (String × α))
    (h : mapLookup k m = some v) : (k, v) ∈ m := by
  induction m with
  | nil => simp [mapLookup] at h
  | cons p rest ih =>
    by_cases hp : p.1 = k
    · simp [mapLookup, hp] at h
      have hpk : p = (k, v) := by
        cases p
        simp_all

      rw [hpk]
      exact List.mem_cons_self _ _
    · simp [mapLookup, hp] at h
      exact List.mem_cons_of_mem _ (ih h)

theorem lookup_eq_of_nodup (k : String) (v v' : α) (m : List (String × α))
    (hnd : (m.map Prod.fst).Nodup) (hl : mapLookup k m = some v)
    (hm : (k, v') ∈ m) : v' = v := by
  induction m with
  | nil => simp at hm
  | cons p rest ih =>
    have hnd2 : (p.1 :: rest.map Prod.fst).Nodup := by simpa using hnd
    rcases List.mem_cons.mp hm with hm | hm
    · subst hm
      simp [mapLookup] at hl
      exact hl
    · by_cases hp : p.1 = k
      · exfalso
        have hknot : p.1 ∉ rest.map Prod.fst := (List.nodup_cons.mp hnd2).1
        rw [hp] at hknot
        exact hknot (by simpa using List.mem_map_of_mem Prod.fst hm)
      · simp [mapLookup, hp] at hl
        exact ih (List.nodup_cons.mp hnd2).2 hl hm

/-! ### Helper lemmas about `deleteFileInternal` and `cleanupTick` -/

theorem deleteFileInternal_files (fileID : String) (fs : FileStore) :
    (deleteFileInternal fileID fs).files = mapErase fileID fs.files := by
  unfold deleteFileInternal
  cases h : mapLookup fileID fs.files with
  | none => exact (mapErase_of_lookup_none fileID fs.files h).symm
  | some meta =>
    by_cases hm : meta.isInMemory <;> cases hr : mapLookup fileID fs.ramStore <;> simp [hm, hr]

theorem deleteFileInternal_lookup_ne (delId k : String) (fs : FileStore) (h : k ≠ delId) :
    mapLookup k (deleteFileInternal delId fs).files = mapLookup k fs.files := by
  rw [deleteFileInternal_files]
  exact mapLookup_erase_ne k delId fs.files h

theorem cleanupFold_preserves (now : Nat) (k : String) (meta : FileMetadata)
    (l : List (String × FileMetadata)) :
    ∀ acc : FileStore,
      mapLookup k acc.files = some meta →
      (∀ m', (k, m') ∈ l → ¬ now > m'.expiryTime) →
      mapLookup k
        ((l.foldl (fun a p => if now > p.2.expiryTime then deleteFileInternal p.1 a else a)
          acc)).files = some meta := by
  induction l with
  | nil => intro acc hacc _; simpa using hacc
  | cons p rest ih =>
    intro acc hacc hsafe
    simp only [List.foldl_cons]
    by_cases hexp : now > p.2.expiryTime
    · have hne : k ≠ p.1 := by
        intro hk
        refine hsafe p.2 ?_ hexp
        rw [hk]
        exact List.mem_cons.mpr (Or.inl Prod.mk.eta.symm)
      refine ih _ ?_ (fun m' hm' => hsafe m' (List.mem_cons_of_mem _ hm'))
      rw [if_pos hexp, deleteFileInternal_lookup_ne p.1 k acc hne]
      exact hacc
    · rw [if_neg hexp]
      exact ih _ hacc (fun m' hm' => hsafe m' (List.mem_cons_of_mem _ hm'))

/-! ### Concrete instances used by the witnesses -/

/-- A concrete conversion oracle that passes the bytes through unchanged. -/
def convId : List Nat → String → String → Option (List Nat × String) :=
  fun b fn _ => some (b, fn)

/-- A concrete conversion oracle that shrinks the payload (as a real format
conversion may): it returns a single-byte output with a renamed file. -/
def convShrink : List Nat → String → String → Option (List Nat × String) :=
  fun _ _ _ => some ([5], "f.jpg")

/-- A small concrete configuration: 10-byte memory budget, TTL 5 ticks. -/
def cfgSmall : StoreConfig := { ramLimitBytes := 10, fileExpiryDuration := 5 }

/-! ### Claim theorems -/

/-- C2: for a Put whose stored payload has size `s`, given the counter value
`u` and budget `B` at admission, the record goes to the Memory tier iff
`u + s ≤ B`; in particular (counter nonnegative) a blob with `s > B` goes to
Disk, and the call is never rejected for size reasons (with the disk write
succeeding, it returns a record for any size). -/
theorem addFile_tier_placement (cfg : StoreConfig) (now : Nat) (fileID : String)
    (b sb : List Nat) (fn ct tf cn : String)
    (conv : List Nat → String → String → Option (List Nat × String)) (fs : FileStore)
    (hconv : conversionStep conv b fn tf = some (sb, cn)) :
    ∃ meta fs',
      AddFile cfg now (some fileID) (some b) fn ct tf conv true fs = (Except.ok meta, fs') ∧
      (meta.isInMemory = true ↔ fs.currentRAMUsage + (sb.length : Int) ≤ cfg.ramLimitBytes) ∧
      (0 ≤ fs.currentRAMUsage → cfg.ramLimitBytes < (sb.length : Int) →
        meta.isInMemory = false) := by
  by_cases h : fs.currentRAMUsage + (sb.length : Int) ≤ cfg.ramLimitBytes
  · simp [AddFile, hconv, h]
    intro h0
    omega
  · simp [AddFile, hconv, h]

/-- Witness for C2 at a concrete input: a 3-byte payload against a 10-byte
budget on a fresh store. -/
theorem addFile_tier_placement_witness :
    ∃ meta fs',
      AddFile cfgSmall 0 (some "a") (some [1, 2, 3]) "f" "t" "" convId true
          (NewFileStore "d") = (Except.ok meta, fs') ∧
      (meta.isInMemory = true ↔
        (NewFileStore "d").currentRAMUsage + (([1, 2, 3] : List Nat).length : Int) ≤
          cfgSmall.ramLimitBytes) ∧
      (0 ≤ (NewFileStore "d").currentRAMUsage →
        cfgSmall.ramLimitBytes < (([1, 2, 3] : List Nat).length : Int) →
        meta.isInMemory = false) :=
  addFile_tier_placement cfgSmall 0 "a" [1, 2, 3] [1, 2, 3] "f" "t" "" "f" convId
    (NewFileStore "d") rfl

/-- C6: whenever `AddFile` returns an error (identifier generation, content
read, conversion, or disk write failure), the metadata table, the RAM
content table and the memory-usage counter are exactly as before the call. -/
theorem addFile_error_leaves_state (cfg : StoreConfig) (now : Nat)
    (idResult : Option String) (readResult : Option (List Nat))
    (fn ct tf : String) (conv : List Nat → String → String → Option (List Nat × String))
    (w : Bool) (fs : FileStore) (e : String)
    (herr : (AddFile cfg now idResult readResult fn ct tf conv w fs).1 = Except.error e) :
    (AddFile cfg now idResult readResult fn ct tf conv w fs).2.files = fs.files ∧
    (AddFile cfg now idResult readResult fn ct tf conv w fs).2.ramStore = fs.ramStore ∧
    (AddFile cfg now idResult readResult fn ct tf conv w fs).2.currentRAMUsage =
      fs.currentRAMUsage := by
  cases idResult with
  | none => simp [AddFile]
  | some fid =>
    cases readResult with
    | none => simp [AddFile]
    | some b =>
      cases hc : conversionStep conv b fn tf with
      | none => simp [AddFile, hc]
      | some p =>
        obtain ⟨sb, cn⟩ := p
        by_cases h : fs.currentRAMUsage + (sb.length : Int) ≤ cfg.ramLimitBytes
        · exfalso
          simp [AddFile, hc, h] at herr
        · cases w with
          | false => simp [AddFile, hc, h]
          | true =>
            exfalso
            simp [AddFile, hc, h] at herr

/-- Witness for C6 at a concrete input: identifier generation fails on a
fresh store, which is returned untouched. -/
theorem addFile_error_leaves_state_witness :
    (AddFile cfgSmall 0 none (some [1]) "f" "t" "" convId true (NewFileStore "d")).2.files =
        (NewFileStore "d").files ∧
    (AddFile cfgSmall 0 none (some [1]) "f" "t" "" convId true
          (NewFileStore "d")).2.ramStore = (NewFileStore "d").ramStore ∧
    (AddFile cfgSmall 0 none (some [1]) "f" "t" "" convId true
          (NewFileStore "d")).2.currentRAMUsage = (NewFileStore "d").currentRAMUsage :=
  addFile_error_leaves_state cfgSmall 0 none (some [1]) "f" "t" "" convId true
    (NewFileStore "d") "failed to generate file ID" rfl

/-- C8: deletion is idempotent — deleting an identifier absent from the
metadata table leaves the whole store unchanged (hence the metadata table,
content table and usage counter), and deleting the same identifier twice
equals deleting it once. -/
theorem deleteFileInternal_idempotent (fileID : String) (fs : FileStore) :
    (mapLookup fileID fs.files = none → deleteFileInternal fileID fs = fs) ∧
    deleteFileInternal fileID (deleteFileInternal fileID fs) =
      deleteFileInternal fileID fs := by
  have hnone : ∀ s : FileStore, mapLookup fileID s.files = none →
      deleteFileInternal fileID s = s := by
    intro s h
    simp [deleteFileInternal, h]
  refine ⟨hnone fs, ?_⟩
  apply hnone
  rw [deleteFileInternal_files]
  exact mapLookup_erase_self fileID fs.files

/-- Witness for C8 at a concrete input: deleting an identifier that never
existed from a fresh store is a no-op. -/
theorem deleteFileInternal_idempotent_witness :
    deleteFileInternal "a" (NewFileStore "d") = NewFileStore "d" :=
  (deleteFileInternal_idempotent "a" (NewFileStore "d")).1 rfl

/-- C5: `GetFile` returns the not-found error exactly when the identifier is
absent from the metadata table or the record's expiry has strictly passed;
in the expired case the post-call state is the one produced by the shared
deletion routine `deleteFileInternal`, and the error value returned for an
expired identifier is the very same error value as for an unknown one. -/
theorem getFile_notFound_characterization (now : Nat) (fileID : String) (fs : FileStore) :
    ((GetFile now fileID fs).1 = Except.error "file not found or expired" ↔
      mapLookup fileID fs.files = none ∨
        ∃ meta, mapLookup fileID fs.files = some meta ∧ now > meta.expiryTime) ∧
    (∀ meta, mapLookup fileID fs.files = some meta → now > meta.expiryTime →
      (GetFile now fileID fs).2 = deleteFileInternal fileID fs) ∧
    (mapLookup fileID fs.files = none → (GetFile now fileID fs).2 = fs) := by
  cases h : mapLookup fileID fs.files with
  | none => simp [GetFile, h]
  | some meta =>
    by_cases he : now > meta.expiryTime
    · simp [GetFile, h, he]
    · by_cases him : meta.isInMemory
      · cases hr : mapLookup fileID fs.ramStore with
        | none => simp [GetFile, h, he, him, hr]
        | some c => simp [GetFile, h, he, him, hr]
      · cases hd : mapLookup meta.path fs.disk with
        | none => simp [GetFile, h, he, him, hd]
        | some c => simp [GetFile, h, he, him, hd]

/-- Witness for C5 at a concrete input: an identifier that never existed
yields the not-found error on a fresh store. -/
theorem getFile_notFound_characterization_witness :
    (GetFile 0 "a" (NewFileStore "d")).1 = Except.error "file not found or expired" :=
  ((getFile_notFound_characterization 0 "a" (NewFileStore "d")).1).mpr (Or.inl rfl)

/-- Fields of the metadata record returned by a successful `AddFile`: the
timestamps derive from the call's instant and the TTL constant, the id from
the generated identifier, and `size` from the length of the bytes read
(before any conversion). Shared helper for several claims. -/
theorem addFile_ok_fields (cfg : StoreConfig) (now : Nat) (idr : Option String)
    (rdr : Option (List Nat)) (fn ct tf : String)
    (conv : List Nat → String → String → Option (List Nat × String)) (w : Bool)
    (fs : FileStore) (meta : FileMetadata) (fs' : FileStore)
    (h : AddFile cfg now idr rdr fn ct tf conv w fs = (Except.ok meta, fs')) :
    meta.uploadTime = now ∧ meta.expiryTime = now + cfg.fileExpiryDuration ∧
    (∃ fid, idr = some fid ∧ meta.id = fid) ∧
    (∃ b, rdr = some b ∧ meta.size = (b.length : Int)) := by
  cases idr with
  | none => simp [AddFile] at h
  | some fid =>
    cases rdr with
    | none => simp [AddFile] at h
    | some b =>
      cases hc : conversionStep conv b fn tf with
      | none => simp [AddFile, hc] at h
      | some p =>
        obtain ⟨sb, cn⟩ := p
        by_cases hcond : fs.currentRAMUsage + (sb.length : Int) ≤ cfg.ramLimitBytes
        · simp [AddFile, hc, hcond] at h
          obtain ⟨hm, _⟩ := h
          subst hm
          by_cases htf : tf = "" <;> simp [htf]
        · cases w with
          | false => simp [AddFile, hc, hcond] at h
          | true =>
            simp [AddFile, hc, hcond] at h
            obtain ⟨hm, _⟩ := h
            subst hm
            by_cases htf : tf = "" <;> simp [htf]

/-- C7: the record created by a successful `AddFile` has
`expiryTime = uploadTime + fileExpiryDuration` with the TTL taken from the
configuration, and a read (`GetFile`) never changes any surviving record's
expiry time — every record present after the call was present before it
with the same expiry time. -/
theorem expiry_is_creation_plus_ttl :
    (∀ cfg now idr rdr fn ct tf conv w fs meta fs',
        AddFile cfg now idr rdr fn ct tf conv w fs = (Except.ok meta, fs') →
        meta.expiryTime = meta.uploadTime + cfg.fileExpiryDuration) ∧
    (∀ now fileID fs k m',
        mapLookup k ((GetFile now fileID fs).2).files = some m' →
        ∃ m, mapLookup k fs.files = some m ∧ m'.expiryTime = m.expiryTime) := by
  constructor
  · intro cfg now idr rdr fn ct tf conv w fs meta fs' h
    obtain ⟨hu, he, -, -⟩ := addFile_ok_fields cfg now idr rdr fn ct tf conv w fs meta fs' h
    rw [hu, he]
  · intro now fileID fs k m' h
    have hstate : (GetFile now fileID fs).2 = fs ∨
        (GetFile now fileID fs).2 = deleteFileInternal fileID fs := by
      unfold GetFile
      cases hl : mapLookup fileID fs.files with
      | none => left; rfl
      | some meta =>
        by_cases he : now > meta.expiryTime
        · right; simp [he]
        · by_cases him : meta.isInMemory
          · cases hr : mapLookup fileID fs.ramStore with
            | none => left; simp [he, him, hr]
            | some c => left; simp [he, him, hr]
          · cases hd : mapLookup meta.path fs.disk with
            | none => left; simp [he, him, hd]
            | some c => left; simp [he, him, hd]
    rcases hstate with hs | hs
    · rw [hs] at h
      exact ⟨m', h, rfl⟩
    · rw [hs, deleteFileInternal_files] at h
      by_cases hk : k = fileID
      · rw [hk, mapLookup_erase_self] at h
        exact absurd h (by simp)
      · rw [mapLookup_erase_ne k fileID fs.files hk] at h
        exact ⟨m', h, rfl⟩

/-- Witness for C7 at a concrete input: a successful `AddFile` on a fresh
store produces a record whose expiry equals its upload time plus the TTL. -/
theorem expiry_is_creation_plus_ttl_witness :
    ∃ meta fs',
      AddFile cfgSmall 7 (some "a") (some [1]) "f" "t" "" convId true (NewFileStore "d") =
        (Except.ok meta, fs') ∧
      meta.expiryTime = meta.uploadTime + cfgSmall.fileExpiryDuration := by
  refine ⟨_, _, rfl, ?_⟩
  exact expiry_is_creation_plus_ttl.1 cfgSmall 7 (some "a") (some [1]) "f" "t" "" convId
    true (NewFileStore "d") _ _ rfl

/-- C4: a payload larger than the memory budget, Put without conversion
(counter nonnegative, disk write succeeding), lands on the Disk tier, and a
Get with the returned identifier at any time not past expiry returns
exactly the submitted bytes. -/
theorem addFile_oversized_disk_roundtrip (cfg : StoreConfig) (now now2 : Nat)
    (fileID : String) (b : List Nat) (fn ct : String)
    (conv : List Nat → String → String → Option (List Nat × String)) (fs : FileStore)
    (hu : 0 ≤ fs.currentRAMUsage)
    (hbig : cfg.ramLimitBytes < (b.length : Int))
    (hfresh : ¬ now2 > now + cfg.fileExpiryDuration) :
    ∃ meta fs',
      AddFile cfg now (some fileID) (some b) fn ct "" conv true fs = (Except.ok meta, fs') ∧
      meta.isInMemory = false ∧
      (GetFile now2 fileID fs').1 = Except.ok (meta, b) := by
  have hcond : ¬ fs.currentRAMUsage + (b.length : Int) ≤ cfg.ramLimitBytes := by omega
  simp [AddFile, conversionStep, hcond]
  refine ⟨_, _, ⟨rfl, rfl⟩, rfl, ?_⟩
  simp [GetFile, mapLookup_insert_self, hfresh]

/-- Witness for C4 at a concrete input: an 11-byte payload against the
10-byte budget of `cfgSmall`, read back 4 ticks later (TTL is 5). -/
theorem addFile_oversized_disk_roundtrip_witness :
    ∃ meta fs',
      AddFile cfgSmall 0 (some "a") (some [0, 0, 0, 0, 0, 0, 0, 0, 0, 0, 0]) "f" "t" ""
          convId true (NewFileStore "d") = (Except.ok meta, fs') ∧
      meta.isInMemory = false ∧
      (GetFile 4 "a" fs').1 = Except.ok (meta, [0, 0, 0, 0, 0, 0, 0, 0, 0, 0, 0]) :=
  addFile_oversized_disk_roundtrip cfgSmall 0 4 "a" [0, 0, 0, 0, 0, 0, 0, 0, 0, 0, 0]
    "f" "t" convId (NewFileStore "d") (by decide) (by decide) (by decide)

/-- C10: expiry is strict. At an instant exactly equal to a record's
`expiryTime`, `GetFile` still succeeds with the stored bytes (for either
tier, given its content is where the metadata points), and a sweep tick at
that same instant does not remove the record; only strictly later instants
treat it as expired. The key-uniqueness hypothesis is the Go-map invariant
on the metadata table. -/
theorem strict_expiry_boundary (fileID : String) (fs : FileStore) (meta : FileMetadata)
    (hfind : mapLookup fileID fs.files = some meta)
    (hnd : (fs.files.map Prod.fst).Nodup) :
    (meta.isInMemory = true →
      ∀ content, mapLookup fileID fs.ramStore = some content →
        (GetFile meta.expiryTime fileID fs).1 = Except.ok (meta, content)) ∧
    (meta.isInMemory = false →
      ∀ content, mapLookup meta.path fs.disk = some content →
        (GetFile meta.expiryTime fileID fs).1 = Except.ok (meta, content)) ∧
    mapLookup fileID (cleanupTick meta.expiryTime fs).files = some meta := by
  have hne : ¬ meta.expiryTime > meta.expiryTime := lt_irrefl _
  refine ⟨?_, ?_, ?_⟩
  · intro him content hr
    simp [GetFile, hfind, hne, him, hr]
  · intro him content hd
    simp [GetFile, hfind, hne, him, hd]
  · unfold cleanupTick
    apply cleanupFold_preserves meta.expiryTime fileID meta fs.files fs hfind
    intro m' hm'
    rw [lookup_eq_of_nodup fileID meta m' fs.files hnd hfind hm']
    exact lt_irrefl _

/-- A concrete Memory-tier record with expiry instant 5, used by the C10
witness. -/
def metaMem : FileMetadata :=
  { id := "a", originalName := "f", convertedName := "f", size := 2,
    uploadTime := 0, expiryTime := 5, isInMemory := true, path := "",
    contentType := "t" }

/-- A concrete consistent store holding `metaMem`, used by the C10 witness. -/
def fsMem : FileStore :=
  { files := [("a", metaMem)], ramStore := [("a", [1, 2])],
    currentRAMUsage := 2, disk := [], diskPath := "d" }

/-- Witness for C10 at a concrete input: a read at exactly the expiry
instant returns the bytes, and a sweep at that instant keeps the record. -/
theorem strict_expiry_boundary_witness :
    (GetFile 5 "a" fsMem).1 = Except.ok (metaMem, [1, 2]) ∧
    mapLookup "a" (cleanupTick 5 fsMem).files = some metaMem := by
  have h := strict_expiry_boundary "a" fsMem metaMem rfl (by decide)
  exact ⟨h.1 rfl [1, 2] rfl, h.2.2⟩

/-- Counterexample for C9: the disk file name is not determined by the
identifier alone — two Puts sharing one identifier but submitted under
different display names produce different backing paths. -/
theorem disk_name_not_function_of_id :
    ∃ m1 s1 m2 s2,
      AddFile ⟨0, 5⟩ 0 (some "id1") (some [1]) "x" "t" "" convId true (NewFileStore "d") =
        (Except.ok m1, s1) ∧
      AddFile ⟨0, 5⟩ 0 (some "id1") (some [1]) "y" "t" "" convId true (NewFileStore "d") =
        (Except.ok m2, s2) ∧
      m1.isInMemory = false ∧ m2.isInMemory = false ∧
      m1.id = m2.id ∧ m1.path ≠ m2.path := by
  refine ⟨_, _, _, _, rfl, rfl, rfl, rfl, rfl, ?_⟩
  decide

/-- C9 as amended: the backing file of a Disk-tier record is created under
the configured root, at a path determined deterministically from the
identifier and the record's converted display name
(`diskPath/fileID_convertedName`). -/
theorem addFile_disk_path_shape (cfg : StoreConfig) (now : Nat) (fileID : String)
    (b : List Nat) (fn ct tf : String)
    (conv : List Nat → String → String → Option (List Nat × String)) (w : Bool)
    (fs : FileStore) (meta : FileMetadata) (fs' : FileStore)
    (h : AddFile cfg now (some fileID) (some b) fn ct tf conv w fs = (Except.ok meta, fs'))
    (hd : meta.isInMemory = false) :
    meta.id = fileID ∧
    meta.path = fs.diskPath ++ "/" ++ meta.id ++ "_" ++ meta.convertedName ∧
    ∃ content, mapLookup meta.path fs'.disk = some content := by
  cases hc : conversionStep conv b fn tf with
  | none => simp [AddFile, hc] at h
  | some p =>
    obtain ⟨sb, cn⟩ := p
    by_cases hcond : fs.currentRAMUsage + (sb.length : Int) ≤ cfg.ramLimitBytes
    · exfalso
      simp [AddFile, hc, hcond] at h
      obtain ⟨hm, -⟩ := h
      rw [← hm] at hd
      simp at hd
    · cases w with
      | false => simp [AddFile, hc, hcond] at h
      | true =>
        simp [AddFile, hc, hcond] at h
        obtain ⟨hm, hs⟩ := h
        subst hm
        subst hs
        refine ⟨?_, ?_, ?_⟩
        · by_cases htf : tf = "" <;> simp [htf]
        · by_cases htf : tf = "" <;> simp [htf]
        · exact ⟨sb, by by_cases htf : tf = "" <;> simp [htf, mapLookup_insert_self]⟩

/-- Witness for the amended C9 at a concrete input: a 1-byte payload against
a zero budget goes to disk under `d/id1_x`. -/
theorem addFile_disk_path_shape_witness :
    ∃ meta fs',
      AddFile ⟨0, 5⟩ 0 (some "id1") (some [1]) "x" "t" "" convId true (NewFileStore "d") =
        (Except.ok meta, fs') ∧
      meta.id = "id1" ∧
      meta.path = (NewFileStore "d").diskPath ++ "/" ++ meta.id ++ "_" ++ meta.convertedName ∧
      ∃ content, mapLookup meta.path fs'.disk = some content := by
  refine ⟨_, _, rfl, ?_⟩
  exact addFile_disk_path_shape ⟨0, 5⟩ 0 "id1" [1] "x" "t" "" convId true
    (NewFileStore "d") _ _ rfl rfl

/-- C1 fails on the code: after a single Put whose conversion shrinks the
payload (2 submitted bytes, 1 stored byte), the Memory-tier record does
have exactly one `ramStore` entry, but the sum of the `Size` fields over
Memory-tier records is 2 while `currentRAMUsage` is 1 — the counter tracks
the stored length, `Size` keeps the pre-conversion length. -/
theorem ramUsage_size_sum_mismatch :
    ∃ S meta,
      (AddFile cfgSmall 0 (some "a") (some [7, 8]) "f.png" "image/png" "jpg" convShrink
          true (NewFileStore "d")).2 = S ∧
      mapLookup "a" S.files = some meta ∧ meta.isInMemory = true ∧
      mapLookup "a" S.ramStore = some [5] ∧
      S.currentRAMUsage = 1 ∧ memSizeSum S = 2 ∧
      memSizeSum S ≠ S.currentRAMUsage := by
  refine ⟨_, _, rfl, rfl, rfl, rfl, rfl, rfl, ?_⟩
  decide

/-- C3 fails on the code: for the same converting Put, the record's `Size`
field is 2 (the submitted length) while the payload actually stored in its
tier is `[5]`, of length 1 — `Size` is set before conversion and never
updated (the code comment says the size should be updated, but only the
local variable is). -/
theorem size_field_not_stored_length :
    ∃ meta fs',
      AddFile cfgSmall 0 (some "a") (some [7, 8]) "f.png" "image/png" "jpg" convShrink
          true (NewFileStore "d") = (Except.ok meta, fs') ∧
      meta.size = 2 ∧
      mapLookup "a" fs'.ramStore = some [5] ∧
      meta.size ≠ (([5] : List Nat).length : Int) := by
  refine ⟨_, _, rfl, rfl, rfl, ?_⟩
  decide
